import Mathlib

/-!
Verification development for the webhook ingestion / revalidation / deployment
subsystem of the repository (a Next.js CMS-backed website generator).

Shallow embedding conventions:
* JavaScript `Map` objects are modelled as insertion-ordered association lists
  (`List (κ × α)`); `Map.set` replaces in place for an existing key and appends
  for a fresh key, `Map.delete` removes the entries with the given key, and
  iteration order is list order, matching JS `Map` iteration order.
* Millisecond timestamps (`Date.now()`, ISO strings parsed back with
  `new Date(s).getTime()`) are modelled as `Nat` values threaded explicitly.
* Throwing code is modelled with `Except`; external effects (the network
  `fetch`, Next.js `revalidatePath` / `revalidateTag`) are modelled as oracle
  parameters describing the outcome of each external call.
* Node's HMAC-SHA256 (`crypto.createHmac('sha256', secret).update(p).digest('hex')`)
  is external cryptography, modelled as an abstract function parameter; its
  digest is a byte sequence rendered in lowercase hex, exactly as
  `digest('hex')` renders it.
-/

set_option autoImplicit false

/-! ## Definitions -/

section AssocMap

variable {κ : Type} {α : Type} [DecidableEq κ]

/-- `Map.get(k)`: first entry with the given key (keys are unique in a JS map,
so "first" is "the" entry). -/
def mapLookup (k : κ) : List (κ × α) → Option α
  | [] => none
  | (k', v) :: t => if k' = k then some v else mapLookup k t

/-- `Map.set(k, v)`: replace the value in place when the key is present
(keeping its insertion-order position), append otherwise. -/
def mapSet (k : κ) (v : α) (l : List (κ × α)) : List (κ × α) :=
  if l.any (fun p => p.1 = k) then
    l.map (fun p => if p.1 = k then (k, v) else p)
  else
    l ++ [(k, v)]

/-- `Map.delete(k)`: remove the entries with the given key. -/
def mapDelete (k : κ) (l : List (κ × α)) : List (κ × α) :=
  l.filter (fun p => decide (p.1 ≠ k))

/-- The keys of the map, in insertion order. -/
def mapKeys (l : List (κ × α)) : List κ :=
  l.map Prod.fst

end AssocMap

/-! ## Signature Verifier (`src/app/api/webhooks/build/route.ts`)

`verifySignature(payload, signature)`:
```
if (!signature) return false
const expectedSignature = crypto.createHmac('sha256', WEBHOOK_SECRET)
  .update(payload).digest('hex')
const receivedSignature = signature.replace('sha256=', '')
return crypto.timingSafeEqual(
  Buffer.from(expectedSignature, 'hex'),
  Buffer.from(receivedSignature, 'hex'))
```
-/

/-- Value of a single hex digit character, `none` for a non-hex character
(the ranges 0-9, a-f, A-F, as Node's hex decoder accepts). -/
def hexVal (c : Char) : Option Nat :=
  let n := c.toNat
  if 48 ≤ n ∧ n ≤ 57 then some (n - 48)
  else if 97 ≤ n ∧ n ≤ 102 then some (n - 87)
  else if 65 ≤ n ∧ n ≤ 70 then some (n - 55)
  else none

/-- `Buffer.from(s, 'hex')`: Node decodes hex two characters per byte and
stops at the first pair that is not two hex digits (which also truncates a
trailing lone digit), so malformed hex silently yields a short buffer. -/
def bufferFromHex : List Char → List Nat
  | c₁ :: c₂ :: rest =>
    match hexVal c₁, hexVal c₂ with
    | some hi, some lo => (16 * hi + lo) :: bufferFromHex rest
    | _, _ => []
  | _ => []

/-- The lowercase hex digit characters used by `digest('hex')`. -/
def hexDigitChar (n : Nat) : Char :=
  match n with
  | 0 => '0' | 1 => '1' | 2 => '2' | 3 => '3' | 4 => '4'
  | 5 => '5' | 6 => '6' | 7 => '7' | 8 => '8' | 9 => '9'
  | 10 => 'a' | 11 => 'b' | 12 => 'c' | 13 => 'd' | 14 => 'e'
  | _ => 'f'

/-- Lowercase hex rendering of a byte sequence, as `digest('hex')` yields. -/
def hexChars : List Nat → List Char
  | [] => []
  | b :: t => hexDigitChar (b / 16) :: hexDigitChar (b % 16) :: hexChars t

/-- Hex-encode a byte sequence into a string. -/
def hexEncode (bytes : List Nat) : String :=
  String.mk (hexChars bytes)

/-- The `RangeError` raised by `crypto.timingSafeEqual` on buffers of
different lengths. -/
def timingSafeEqualLengthError : String :=
  "RangeError: Input buffers must have the same byte length"

/-- `crypto.timingSafeEqual(a, b)`: equality of equal-length buffers; throws a
`RangeError` when the byte lengths differ. (The constant-time aspect is a
timing property outside the functional model.) -/
def timingSafeEqual (a b : List Nat) : Except String Bool :=
  if a.length = b.length then .ok (decide (a = b))
  else .error timingSafeEqualLengthError

/-- JS `String.replace(pat, '')` with a string pattern: remove the first
occurrence of `pat`, leave the rest unchanged. -/
def removeFirst (pat : List Char) : List Char → List Char
  | [] => []
  | c :: rest =>
    if pat.isPrefixOf (c :: rest) then (c :: rest).drop pat.length
    else c :: removeFirst pat rest

/-- `verifySignature(payload, signature)` from
`src/app/api/webhooks/build/route.ts`, parameterized by the HMAC digest
function `hmacBytes` (Node's HMAC-SHA256, 32 bytes) and the configured
secret. The `Except` result records that `timingSafeEqual` can throw. -/
def verifySignature (hmacBytes : String → String → List Nat) (secret : String)
    (payload signature : String) : Except String Bool :=
  if signature = "" then .ok false
  else
    let expectedSignature := hexEncode (hmacBytes secret payload)
    let receivedSignature := String.mk (removeFirst "sha256=".data signature.data)
    timingSafeEqual (bufferFromHex expectedSignature.data)
      (bufferFromHex receivedSignature.data)

/-- A concrete stand-in for the external HMAC-SHA256 digest function, used to
evaluate the verifier at concrete inputs: every digest is the 32-byte
all-zero sequence (hex form: 64 times the character 0). -/
def hmacTestBytes : String → String → List Nat :=
  fun _ _ => List.replicate 32 0

/-! ## Revalidation Dispatcher (`lib/revalidation.ts`)

The manager accumulates successfully revalidated paths and tags; the
underlying Next.js `revalidatePath` / `revalidateTag` calls may throw, which
the manager's helpers rethrow after logging. The throw behavior of the
external calls is an oracle parameter (`none` = succeeds, `some msg` = throws
`msg`); a thrown error carries the manager state accumulated so far, since
the JS manager object keeps its pushed entries when an exception aborts a
helper midway. -/

structure RMState where
  revalidatedPaths : List String
  revalidatedTags : List String
deriving DecidableEq

structure RevalidationResult where
  success : Bool
  revalidatedPaths : List String
  revalidatedTags : List String
  error : Option String
  processingTime : Nat
deriving DecidableEq

namespace RevalidationManager

/-- `revalidatePath(path)`: call Next.js revalidation, push the path on
success, rethrow on failure. -/
def revalidatePath (po : String → Option String) (st : RMState) (path : String) :
    Except (String × RMState) RMState :=
  match po path with
  | some e => .error (e, st)
  | none => .ok { st with revalidatedPaths := st.revalidatedPaths ++ [path] }

/-- `revalidateTag(tag)`: call Next.js tag revalidation, push the tag on
success, rethrow on failure. -/
def revalidateTag (tg : String → Option String) (st : RMState) (tag : String) :
    Except (String × RMState) RMState :=
  match tg tag with
  | some e => .error (e, st)
  | none => .ok { st with revalidatedTags := st.revalidatedTags ++ [tag] }

/-- `revalidateBlogPost(slug?, action)`: blog index, the post page when a
truthy slug is given, the SEO files, and the `blog-posts` tag. The action
argument only affects logging. -/
def revalidateBlogPost (po tg : String → Option String) (st : RMState)
    (slug : Option String) (_action : String) :
    Except (String × RMState) RMState := do
  let st ← revalidatePath po st "/blog"
  let st ← match slug with
    | some s => if s = "" then pure st else revalidatePath po st ("/blog/" ++ s)
    | none => pure st
  let st ← revalidatePath po st "/sitemap.xml"
  let st ← revalidatePath po st "/rss.xml"
  revalidateTag tg st "blog-posts"

/-- `revalidatePage(slug?, action)`: the page path (the root path for the
sentinel slug `home`, nothing for a falsy slug), the sitemap, and the
`pages` tag. -/
def revalidatePage (po tg : String → Option String) (st : RMState)
    (slug : Option String) (_action : String) :
    Except (String × RMState) RMState := do
  let st ← match slug with
    | some s =>
      if s ≠ "" ∧ s ≠ "home" then revalidatePath po st ("/" ++ s)
      else if s = "home" then revalidatePath po st "/"
      else pure st
    | none => pure st
  let st ← revalidatePath po st "/sitemap.xml"
  revalidateTag tg st "pages"

/-- `revalidateGlobalSettings()`. -/
def revalidateGlobalSettings (po tg : String → Option String) (st : RMState) :
    Except (String × RMState) RMState := do
  let st ← revalidatePath po st "/"
  let st ← revalidatePath po st "/blog"
  let st ← revalidateTag tg st "site-settings"
  let st ← revalidateTag tg st "layout"
  revalidateTag tg st "navigation"

/-- `revalidateMedia(mediaId?)`. -/
def revalidateMedia (tg : String → Option String) (st : RMState)
    (_mediaId : Option String) :
    Except (String × RMState) RMState := do
  let st ← revalidateTag tg st "media"
  revalidateTag tg st "images"

/-- `getResult()`: a successful result over the accumulated state. -/
def getResult (st : RMState) (t₀ t₁ : Nat) : RevalidationResult :=
  { success := true
    revalidatedPaths := st.revalidatedPaths
    revalidatedTags := st.revalidatedTags
    error := none
    processingTime := t₁ - t₀ }

/-- `getErrorResult(error)`: a failed result over the accumulated state. -/
def getErrorResult (st : RMState) (e : String) (t₀ t₁ : Nat) : RevalidationResult :=
  { success := false
    revalidatedPaths := st.revalidatedPaths
    revalidatedTags := st.revalidatedTags
    error := some e
    processingTime := t₁ - t₀ }

end RevalidationManager

/-! ## Webhook payload and the dispatch part of the POST handler
(`src/app/api/webhooks/build/route.ts`) -/

structure WebhookData where
  type : String
  id : Option String := none
  slug : Option String := none
  domain : String := ""
  status : Option String := none
  action : String := "update"

structure WebhookPayload where
  event : String
  data : WebhookData
  timestamp : String := ""

/-- The `try/catch` around the dispatch switch: a normal return yields
`getResult`, a thrown error is converted by `getErrorResult(error.message)`. -/
def rmFinish (res : Except (String × RMState) RMState) (t₀ t₁ : Nat) :
    RevalidationResult :=
  match res with
  | .ok st => RevalidationManager.getResult st t₀ t₁
  | .error (e, st) => RevalidationManager.getErrorResult st e t₀ t₁

/-- `handleRevalidation(payload)`: the dispatch switch over `data.type`. The
manager is constructed at time `t₀` and the result is taken at time `t₁`
(`processingTime` measures that span). -/
def handleRevalidation (po tg : String → Option String) (payload : WebhookPayload)
    (t₀ t₁ : Nat) : RevalidationResult :=
  let st : RMState := ⟨[], []⟩
  match payload.data.type with
  | "post" =>
    rmFinish (RevalidationManager.revalidateBlogPost po tg st payload.data.slug
      payload.data.action) t₀ t₁
  | "page" =>
    rmFinish (RevalidationManager.revalidatePage po tg st payload.data.slug
      payload.data.action) t₀ t₁
  | "settings" =>
    rmFinish (RevalidationManager.revalidateGlobalSettings po tg st) t₀ t₁
  | "media" =>
    rmFinish (RevalidationManager.revalidateMedia tg st payload.data.id) t₀ t₁
  | t => RevalidationManager.getErrorResult st ("Unknown content type: " ++ t) t₀ t₁

/-- The response status computed by the POST handler once the signature has
been accepted and the body parsed (route.ts lines 102-149): structural
validation failure answers 400; otherwise dispatch, answering 200 on success
and 500 on a failed result. -/
def postValidatedStatus (po tg : String → Option String) (payload : WebhookPayload)
    (t₀ t₁ : Nat) : Nat :=
  if payload.event = "" ∨ payload.data.type = "" then 400
  else if (handleRevalidation po tg payload t₀ t₁).success then 200 else 500

/-! ## Deploy-Hook Trigger (`src/lib/webhook-config.ts`, `WebhookManager`) -/

/-- The `'staging' | 'production'` union type. -/
inductive Environment
  | staging
  | production
deriving DecidableEq

/-- String form used in messages and request bodies. -/
def Environment.toStr : Environment → String
  | .staging => "staging"
  | .production => "production"

structure DeployHookConfig where
  url : String
  hookName : String
  branch : String
  environment : Environment

structure WebhookConfig where
  endpoint : String
  secret : String
  stagingHook : DeployHookConfig
  productionHook : DeployHookConfig

/-- `getDeployHook(environment)`: `this.config.deployHooks[environment]`. -/
def getDeployHook (config : WebhookConfig) : Environment → DeployHookConfig
  | .staging => config.stagingHook
  | .production => config.productionHook

/-- JSON body of the deploy-hook response, as far as `triggerDeploy` reads
it (`result.deploymentId || result.id`). -/
structure FetchJson where
  deploymentId : Option String := none
  jsonId : Option String := none
deriving DecidableEq

/-- Outcome of the single `fetch` call made by `triggerDeploy`:
a network-level exception, or an HTTP response with a status, a status text
and a body whose JSON parse may itself throw. -/
inductive FetchOutcome
  | netError (msg : String)
  | response (status : Nat) (statusText : String) (body : Except String FetchJson)

structure TriggerResult where
  success : Bool
  deploymentId : Option String := none
  error : Option String := none
deriving DecidableEq

/-- The falsy-aware `a || b` on two optional strings (the empty string is
falsy in JS). -/
def orFalsyStr : Option String → Option String → Option String
  | some s, b => if s = "" then b else some s
  | none, b => b

/-- `triggerDeploy(environment, reason)`: no configured hook URL means an
immediate failure result without a network call; otherwise POST and treat a
non-2xx response (`!response.ok` throws, caught by the same handler) or any
exception as a failure result. The `reason` only feeds the request body; the
`oracle` is the outcome of the one `fetch`. -/
def triggerDeploy (config : WebhookConfig) (oracle : FetchOutcome)
    (environment : Environment) (reason : Option String) : TriggerResult :=
  let deployHook := getDeployHook config environment
  if deployHook.url = "" then
    { success := false
      error := some ("No deploy hook configured for " ++ environment.toStr) }
  else
    match oracle with
    | .netError msg => { success := false, error := some msg }
    | .response status statusText body =>
      if 200 ≤ status ∧ status ≤ 299 then
        match body with
        | .error msg => { success := false, error := some msg }
        | .ok j =>
          { success := true, deploymentId := orFalsyStr j.deploymentId j.jsonId }
      else
        { success := false
          error := some ("Deploy hook returned " ++ toString status ++ ": "
            ++ statusText) }

/-- A concrete configuration with a staging hook URL, for witnesses. -/
def testConfig : WebhookConfig :=
  { endpoint := "https://staging.howtomecm.com/api/webhooks/build"
    secret := "your-webhook-secret"
    stagingHook :=
      { url := "https://api.vercel.com/v1/integrations/deploy/staging"
        hookName := "staging-auto-deploy"
        branch := "main"
        environment := .staging }
    productionHook :=
      { url := ""
        hookName := "production-auto-deploy"
        branch := "main"
        environment := .production } }

/-! ## Debounced deployment queue (`WebhookManager.queueDeployment`)

Timers are abstracted into an explicit event model: `queueDeployment`
allocates a fresh timer id and registers its callback; `fireTimer t outcome`
is the event "timer `t` reaches its deadline" (with `outcome` the
success/failure of the `triggerDeploy` awaited inside the callback, which
the callback only logs). A timer that has been cleared by `clearTimeout`, or
that has already run, does nothing when fired, so firing every allocated
timer once exercises all possible timelines. `delayMs` fixes when the
deadline occurs, which the event order abstracts, so it does not otherwise
enter the model. -/

structure WMState where
  /-- `deploymentQueue : Map<string, Timeout>` (environment → pending timer). -/
  pendingTimers : List (Environment × Nat)
  /-- Callback registered for each allocated timer id. -/
  timerCallbacks : List (Nat × (Environment × String))
  /-- Timer ids cleared by `clearTimeout`. -/
  canceledTimers : List Nat
  /-- Timer ids that have already run. -/
  doneTimers : List Nat
  /-- `triggerDeploy` invocations made by fired callbacks, in order:
  environment, reason, and the outcome the callback observed. -/
  fired : List (Environment × String × Bool)
  /-- Source of fresh timer ids. -/
  nextTimerId : Nat

/-- `queueDeployment(environment, reason, delayMs)`: clear any pending timer
for the environment, then register a fresh timer whose callback will call
`triggerDeploy(environment, reason)`, and record it in the queue map. -/
def queueDeployment (s : WMState) (environment : Environment) (reason : String)
    (_delayMs : Nat) : WMState :=
  let canceled :=
    match mapLookup environment s.pendingTimers with
    | some t => t :: s.canceledTimers
    | none => s.canceledTimers
  { s with
    canceledTimers := canceled
    timerCallbacks := (s.nextTimerId, (environment, reason)) :: s.timerCallbacks
    pendingTimers := mapSet environment s.nextTimerId s.pendingTimers
    nextTimerId := s.nextTimerId + 1 }

/-- Timer `t` reaches its deadline: if it was cleared or already ran it does
nothing; otherwise its callback runs `triggerDeploy` (recorded in `fired`
with the observed `outcome`) and then deletes the environment's queue entry
regardless of that outcome. -/
def fireTimer (s : WMState) (t : Nat) (outcome : Bool) : WMState :=
  if t ∈ s.canceledTimers ∨ t ∈ s.doneTimers then s
  else
    match mapLookup t s.timerCallbacks with
    | none => s
    | some (environment, reason) =>
      { s with
        fired := s.fired ++ [(environment, reason, outcome)]
        pendingTimers := mapDelete environment s.pendingTimers
        doneTimers := t :: s.doneTimers }

/-- Well-formedness: every timer id the state knows is below the fresh-id
counter. Holds for the initial state and is preserved by the operations. -/
def WMWF (s : WMState) : Prop :=
  (∀ t ∈ s.canceledTimers, t < s.nextTimerId) ∧
  (∀ t ∈ s.doneTimers, t < s.nextTimerId) ∧
  (∀ p ∈ s.pendingTimers, p.2 < s.nextTimerId)

instance (s : WMState) : Decidable (WMWF s) := by
  unfold WMWF
  infer_instance

/-- The empty initial queue state. -/
def initialWMState : WMState :=
  { pendingTimers := []
    timerCallbacks := []
    canceledTimers := []
    doneTimers := []
    fired := []
    nextTimerId := 0 }

/-! ## Deployment Monitor (`DeploymentMonitor` class)

`deployments : Map<string, DeploymentStatus>` with `maxHistory = 50`;
`updateDeployment` merges a partial update over the existing record using
JS `||` falsy-fallback semantics field by field (so the empty string and the
number 0 fall through to the existing value), stamps `updatedAt`, stores the
record, and evicts the first-inserted key when the map exceeds 50 entries.
`createdAt`/`updatedAt` are ISO timestamp strings in the source, parsed back
to milliseconds with `new Date(s).getTime()`; they are modelled as the
millisecond values themselves. A supplied `createdAt` is a (nonempty, hence
truthy) timestamp string, so when the update carries one it always wins. -/

structure DeploymentStatus where
  id : String
  environment : String
  status : String
  url : Option String
  createdAt : Nat
  updatedAt : Nat
  duration : Option Nat
  error : Option String
  buildLogs : List String
deriving DecidableEq

/-- Argument of `updateDeployment`: `Partial<DeploymentStatus> & {id}`. -/
structure DeploymentPatch where
  id : String
  environment : Option String := none
  status : Option String := none
  url : Option String := none
  createdAt : Option Nat := none
  duration : Option Nat := none
  error : Option String := none
  buildLogs : Option (List String) := none
deriving DecidableEq

/-- The falsy-aware `a || b` on optional numbers (0 is falsy in JS). -/
def orFalsyNat : Option Nat → Option Nat → Option Nat
  | some n, b => if n = 0 then b else some n
  | none, b => b

/-- The falsy-aware `a || b || dflt` tail: a `String`-typed chain ending in a
truthy default. -/
def falsyOr (a : Option String) (dflt : String) : String :=
  match a with
  | some s => if s = "" then dflt else s
  | none => dflt

/-- The record built by `updateDeployment` from the optional existing record
and the patch, at current time `now`:
```
{ id, environment: d.environment || existing?.environment || 'staging',
  status: d.status || existing?.status || 'pending',
  url: d.url || existing?.url,
  createdAt: d.createdAt || existing?.createdAt || new Date().toISOString(),
  updatedAt: new Date().toISOString(),
  duration: d.duration || existing?.duration,
  error: d.error || existing?.error,
  buildLogs: d.buildLogs || existing?.buildLogs || [] }
```
(a supplied `buildLogs` array is always truthy in JS, even when empty). -/
def mergeDeployment (existing : Option DeploymentStatus) (d : DeploymentPatch)
    (now : Nat) : DeploymentStatus :=
  { id := d.id
    environment := falsyOr (orFalsyStr d.environment
      (existing.map (fun e => e.environment))) "staging"
    status := falsyOr (orFalsyStr d.status
      (existing.map (fun e => e.status))) "pending"
    url := orFalsyStr d.url (existing.bind (fun e => e.url))
    createdAt :=
      match d.createdAt with
      | some c => c
      | none =>
        match existing with
        | some e => e.createdAt
        | none => now
    updatedAt := now
    duration := orFalsyNat d.duration (existing.bind (fun e => e.duration))
    error := orFalsyStr d.error (existing.bind (fun e => e.error))
    buildLogs :=
      match d.buildLogs with
      | some logs => logs
      | none =>
        match existing with
        | some e => e.buildLogs
        | none => [] }

/-- The deployment collection (`this.deployments`), in insertion order. -/
abbrev Deployments : Type := List (String × DeploymentStatus)

/-- `maxHistory = 50`. -/
def maxHistory : Nat := 50

/-- The eviction step: when the map exceeds `maxHistory`, delete
`Array.from(this.deployments.keys())[0]`, the first-inserted key. -/
def evictOldest (l : Deployments) : Deployments :=
  match l with
  | [] => []
  | p :: _ => mapDelete p.1 l

/-- `updateDeployment(deployment)`. -/
def updateDeployment (deps : Deployments) (d : DeploymentPatch) (now : Nat) :
    Deployments :=
  let existing := mapLookup d.id deps
  let updated := mergeDeployment existing d now
  let stored : Deployments := mapSet d.id updated deps
  if stored.length > maxHistory then evictOldest stored else stored

/-- `getDeployment(id)`. -/
def getDeployment (deps : Deployments) (id : String) : Option DeploymentStatus :=
  mapLookup id deps

/-- `startDeployment(id, environment)`. -/
def startDeployment (deps : Deployments) (id : String) (environment : String)
    (now : Nat) : Deployments :=
  updateDeployment deps
    { id := id, environment := some environment, status := some "pending" } now

/-- `markReady(id, url?, buildTime?)`: `buildTime ||` the elapsed time since
the record's `createdAt` when the record exists (stored `createdAt`
timestamps are nonempty ISO strings, hence truthy). -/
def markReady (deps : Deployments) (id : String) (url : Option String)
    (buildTime : Option Nat) (now : Nat) : Deployments :=
  let deployment := getDeployment deps id
  let elapsed : Option Nat := deployment.map (fun dep => now - dep.createdAt)
  let duration := orFalsyNat buildTime elapsed
  updateDeployment deps
    { id := id, status := some "ready", url := url, duration := duration } now

/-- `markFailed(id, error, buildLogs?)`. -/
def markFailed (deps : Deployments) (id : String) (error : String)
    (buildLogs : Option (List String)) (now : Nat) : Deployments :=
  let deployment := getDeployment deps id
  let duration : Option Nat := deployment.map (fun dep => now - dep.createdAt)
  updateDeployment deps
    { id := id, status := some "error", error := some error,
      duration := duration, buildLogs := buildLogs } now

/-- A concrete pending record for witnesses. -/
def testRecord : DeploymentStatus :=
  { id := "dep-1"
    environment := "staging"
    status := "pending"
    url := none
    createdAt := 100
    updatedAt := 100
    duration := none
    error := none
    buildLogs := [] }

/-- A record that already carries a duration, for the zero-elapsed-time
scenario. -/
def testRecordWithDuration : DeploymentStatus :=
  { testRecord with duration := some 7 }

/-- Folding fresh inserts from a list of distinct ids. -/
def insertDeployments (deps : Deployments) (ids : List String) : Deployments :=
  ids.foldl (fun m i => updateDeployment m { id := i } 0) deps

/-- Fifty-one pairwise-distinct deployment ids. -/
def fiftyOneIds : List String :=
  (List.range 51).map (fun n => "deploy-" ++ toString n)

/-! ## Theorems -/

section AssocMapLemmas

variable {κ : Type} {α : Type} [DecidableEq κ]

theorem mapLookup_eq_none (k : κ) (l : List (κ × α)) (h : k ∉ mapKeys l) :
    mapLookup k l = none := by
  induction l with
  | nil => rfl
  | cons p t ih =>
    simp only [mapKeys, List.map_cons, List.mem_cons] at h
    push_neg at h
    cases p with
    | mk k' v =>
      simp only [mapLookup]
      rw [if_neg (fun hq => h.1 hq.symm)]
      exact ih h.2

theorem mapLookup_isSome (k : κ) (l : List (κ × α)) (h : k ∈ mapKeys l) :
    (mapLookup k l).isSome := by
  induction l with
  | nil => simp [mapKeys] at h
  | cons p t ih =>
    cases p with
    | mk k' v =>
      simp only [mapKeys, List.map_cons, List.mem_cons] at h
      simp only [mapLookup]
      by_cases hk : k' = k
      · simp [hk]
      · rw [if_neg hk]
        apply ih
        rcases h with h | h
        · exact absurd h.symm hk
        · exact h

theorem mapSet_of_not_mem (k : κ) (v : α) (l : List (κ × α)) (h : k ∉ mapKeys l) :
    mapSet k v l = l ++ [(k, v)] := by
  have hany : l.any (fun p => p.1 = k) = false := by
    rw [List.any_eq_false]
    intro p hp hk
    simp only [decide_eq_true_eq] at hk
    apply h
    rw [mapKeys]
    exact List.mem_map.mpr ⟨p, hp, hk⟩
  simp [mapSet, hany]

theorem mapSet_of_mem (k : κ) (v : α) (l : List (κ × α)) (h : k ∈ mapKeys l) :
    mapSet k v l = l.map (fun p => if p.1 = k then (k, v) else p) := by
  have hany : l.any (fun p => p.1 = k) = true := by
    rw [List.any_eq_true]
    simp only [mapKeys] at h
    rcases List.mem_map.mp h with ⟨p, hp, hk⟩
    exact ⟨p, hp, by simp [hk]⟩
  simp [mapSet, hany]

theorem mapKeys_mapSet_of_mem (k : κ) (v : α) (l : List (κ × α)) (h : k ∈ mapKeys l) :
    mapKeys (mapSet k v l) = mapKeys l := by
  rw [mapSet_of_mem k v l h]
  simp only [mapKeys, List.map_map]
  apply List.map_congr_left
  intro p _
  by_cases hk : p.1 = k
  · simp [hk]
  · simp [hk]

theorem length_mapSet_of_mem (k : κ) (v : α) (l : List (κ × α)) (h : k ∈ mapKeys l) :
    (mapSet k v l).length = l.length := by
  rw [mapSet_of_mem k v l h, List.length_map]

theorem mapLookup_map_set (k : κ) (v : α) (l : List (κ × α)) :
    mapLookup k (l.map (fun p => if p.1 = k then (k, v) else p)) =
      (mapLookup k l).map (fun _ => v) := by
  induction l with
  | nil => rfl
  | cons p t ih =>
    cases p with
    | mk k' w =>
      by_cases hk : k' = k
      · subst hk
        simp only [List.map_cons]
        simp [mapLookup]
      · simp only [List.map_cons]
        rw [if_neg hk]
        simp only [mapLookup]
        rw [if_neg hk, if_neg hk]
        exact ih

theorem mapLookup_append_singleton (k : κ) (v : α) (l : List (κ × α))
    (h : mapLookup k l = none) :
    mapLookup k (l ++ [(k, v)]) = some v := by
  induction l with
  | nil => simp [mapLookup]
  | cons p t ih =>
    cases p with
    | mk k' w =>
      simp only [mapLookup] at h ⊢
      by_cases hk : k' = k
      · rw [if_pos hk] at h
        exact absurd h (by simp)
      · rw [if_neg hk] at h ⊢
        exact ih h

theorem mapLookup_mapSet_self (k : κ) (v : α) (l : List (κ × α)) :
    mapLookup k (mapSet k v l) = some v := by
  by_cases h : k ∈ mapKeys l
  · rw [mapSet_of_mem k v l h, mapLookup_map_set]
    have := mapLookup_isSome k l h
    cases hl : mapLookup k l with
    | none => rw [hl] at this; simp at this
    | some w => simp
  · rw [mapSet_of_not_mem k v l h]
    exact mapLookup_append_singleton k v l (mapLookup_eq_none k l h)

theorem mapLookup_mapDelete_ne (k k₀ : κ) (l : List (κ × α)) (h : k ≠ k₀) :
    mapLookup k (mapDelete k₀ l) = mapLookup k l := by
  induction l with
  | nil => rfl
  | cons p t ih =>
    cases p with
    | mk k' v =>
      simp only [mapDelete] at ih ⊢
      by_cases hk : k' = k₀
      · rw [List.filter_cons_of_neg (by simp [hk])]
        simp only [mapLookup]
        rw [if_neg (fun hq => h (hq.symm.trans hk))]
        exact ih
      · rw [List.filter_cons_of_pos (by simp [hk])]
        simp only [mapLookup]
        by_cases hq : k' = k
        · simp [hq]
        · rw [if_neg hq, if_neg hq]
          exact ih

theorem mapLookup_mapDelete_self (k : κ) (l : List (κ × α)) :
    mapLookup k (mapDelete k l) = none := by
  apply mapLookup_eq_none
  intro h
  simp only [mapKeys, mapDelete] at h
  rcases List.mem_map.mp h with ⟨p, hp, hk⟩
  have := (List.mem_filter.mp hp).2
  simp [hk] at this

end AssocMapLemmas

theorem hexVal_hexDigitChar : ∀ n, n < 16 → hexVal (hexDigitChar n) = some n := by
  decide

theorem bufferFromHex_hexChars (bytes : List Nat) (h : ∀ b ∈ bytes, b < 256) :
    bufferFromHex (hexChars bytes) = bytes := by
  induction bytes with
  | nil => rfl
  | cons b t ih =>
    have hb : b < 256 := h b (List.mem_cons_self b t)
    have hhi : b / 16 < 16 := Nat.div_lt_of_lt_mul (by omega)
    have hlo : b % 16 < 16 := Nat.mod_lt b (by omega)
    simp only [hexChars, bufferFromHex, hexVal_hexDigitChar _ hhi,
      hexVal_hexDigitChar _ hlo]
    rw [ih (fun x hx => h x (List.mem_cons_of_mem b hx))]
    congr 1
    omega

theorem length_bufferFromHex_hexChars (bytes : List Nat) (h : ∀ b ∈ bytes, b < 256) :
    (bufferFromHex (hexChars bytes)).length = bytes.length := by
  rw [bufferFromHex_hexChars bytes h]

theorem removeFirst_append (pat rest : List Char) (hne : pat ≠ []) :
    removeFirst pat (pat ++ rest) = rest := by
  cases pat with
  | nil => exact absurd rfl hne
  | cons c t =>
    have hpre : (c :: t).isPrefixOf ((c :: t) ++ rest) = true := by
      rw [List.isPrefixOf_iff_prefix]
      exact ⟨rest, rfl⟩
    rw [List.cons_append] at hpre
    rw [List.cons_append]
    simp only [removeFirst, hpre, if_true]
    have hdrop := List.drop_left (c :: t) rest
    rwa [List.cons_append] at hdrop

theorem string_data_append (s t : String) : (s ++ t).data = s.data ++ t.data := rfl

theorem string_append_ne_empty (s t : String) (h : s ≠ "") : s ++ t ≠ "" := by
  intro he
  apply h
  cases s with
  | mk l =>
    cases t with
    | mk m =>
      have hd : l ++ m = [] := congrArg String.data he
      have hl : l = [] := (List.append_eq_nil.mp hd).1
      rw [hl]

/-- Evaluating `verifySignature` on a header of the shape `sha256=<digest>`:
the guard does not fire, and the prefix is stripped by `replace`. -/
theorem verifySignature_append_digest (hmacBytes : String → String → List Nat)
    (S B : String) (digest : List Nat) :
    verifySignature hmacBytes S B ("sha256=" ++ hexEncode digest) =
      timingSafeEqual (bufferFromHex (hexChars (hmacBytes S B)))
        (bufferFromHex (hexChars digest)) := by
  have hempty : ("sha256=" ++ hexEncode digest) ≠ "" :=
    string_append_ne_empty _ _ (by decide)
  rw [verifySignature, if_neg hempty]
  have hrm : removeFirst "sha256=".data ("sha256=" ++ hexEncode digest).data
      = hexChars digest := by
    rw [string_data_append]
    exact removeFirst_append _ _ (by decide)
  simp only [hexEncode] at hrm ⊢
  rw [hrm]

/-- C1: the claim says `verifySignature` never throws and fails closed on a
malformed or wrong-length digest. The code does fail closed on a missing
header, but for a well-formed-looking header whose hex digest part has the
wrong length (`sha256=ab`), `Buffer.from(receivedSignature, 'hex')` yields a
1-byte buffer while the expected digest is 32 bytes, and
`crypto.timingSafeEqual` throws a `RangeError` on buffers of different byte
lengths instead of returning `false`. -/
theorem verifySignature_throws_on_short_digest :
    verifySignature hmacTestBytes "your-webhook-secret" "x" "" = .ok false ∧
    verifySignature hmacTestBytes "your-webhook-secret" "x" "sha256=ab" =
      .error timingSafeEqualLengthError := by
  constructor
  · rfl
  · rfl

/-- C2: for every body `B` and secret `S`, verifying `B` against the header
`sha256=hex(HMAC(S, B))` succeeds, and verifying `B` against the digest of a
different body `B'` fails (returning `false`, not throwing), under the
standard idealization that the two 32-byte HMAC digests differ. -/
theorem verifySignature_correct (hmacBytes : String → String → List Nat)
    (S B B' : String)
    (hlen : (hmacBytes S B).length = 32)
    (hlen' : (hmacBytes S B').length = 32)
    (hbytes : ∀ x ∈ hmacBytes S B, x < 256)
    (hbytes' : ∀ x ∈ hmacBytes S B', x < 256)
    (hne : B' ≠ B)
    (hcoll : hmacBytes S B' ≠ hmacBytes S B) :
    verifySignature hmacBytes S B ("sha256=" ++ hexEncode (hmacBytes S B)) =
      .ok true ∧
    verifySignature hmacBytes S B ("sha256=" ++ hexEncode (hmacBytes S B')) =
      .ok false := by
  constructor
  · rw [verifySignature_append_digest]
    simp [timingSafeEqual]
  · rw [verifySignature_append_digest]
    rw [bufferFromHex_hexChars _ hbytes, bufferFromHex_hexChars _ hbytes']
    rw [timingSafeEqual, if_pos (by rw [hlen, hlen'])]
    rw [decide_eq_false (fun h => hcoll h.symm)]

/-- Witness for C2 at a concrete injective-on-these-inputs digest function. -/
theorem verifySignature_correct_witness :
    verifySignature (fun _ b => if b = "B" then List.replicate 32 0 else List.replicate 32 1)
      "s" "B" ("sha256=" ++ hexEncode (List.replicate 32 0)) = .ok true ∧
    verifySignature (fun _ b => if b = "B" then List.replicate 32 0 else List.replicate 32 1)
      "s" "B" ("sha256=" ++ hexEncode (List.replicate 32 1)) = .ok false := by
  have h := verifySignature_correct
    (fun _ b => if b = "B" then List.replicate 32 0 else List.replicate 32 1)
    "s" "B" "C" (by decide) (by decide) (by decide) (by decide) (by decide) (by decide)
  exact h

/-- The dispatch switch falls to the default branch on any content type
outside the four known ones, producing the unknown-type error result over an
untouched manager. -/
theorem handleRevalidation_unknown (po tg : String → Option String)
    (p : WebhookPayload) (t₀ t₁ : Nat)
    (htype : p.data.type ∉ (["post", "page", "settings", "media"] : List String)) :
    handleRevalidation po tg p t₀ t₁ =
      RevalidationManager.getErrorResult ⟨[], []⟩
        ("Unknown content type: " ++ p.data.type) t₀ t₁ := by
  simp only [List.mem_cons, List.mem_singleton, not_or] at htype
  obtain ⟨h1, h2, h3, h4, _⟩ := htype
  rw [handleRevalidation]
  split
  · exact absurd (by assumption) h1
  · exact absurd (by assumption) h2
  · exact absurd (by assumption) h3
  · exact absurd (by assumption) h4
  · rfl

/-- C6: for every validated payload whose `data.type` is outside
post/page/settings/media, the dispatcher returns a failed
`RevalidationResult` with a non-empty error string, and the (total, hence
non-crashing) HTTP handler model answers 500. -/
theorem handleRevalidation_unknown_type_500 (po tg : String → Option String)
    (p : WebhookPayload) (t₀ t₁ : Nat)
    (hevent : p.event ≠ "")
    (hne : p.data.type ≠ "")
    (htype : p.data.type ∉ (["post", "page", "settings", "media"] : List String)) :
    (handleRevalidation po tg p t₀ t₁).success = false ∧
    (handleRevalidation po tg p t₀ t₁).error =
      some ("Unknown content type: " ++ p.data.type) ∧
    (∀ e, (handleRevalidation po tg p t₀ t₁).error = some e → e ≠ "") ∧
    postValidatedStatus po tg p t₀ t₁ = 500 := by
  have hval := handleRevalidation_unknown po tg p t₀ t₁ htype
  refine ⟨by rw [hval]; rfl, by rw [hval]; rfl, ?_, ?_⟩
  · intro e he
    rw [hval] at he
    simp only [RevalidationManager.getErrorResult, Option.some.injEq] at he
    rw [← he]
    exact string_append_ne_empty _ _ (by decide)
  · rw [postValidatedStatus, if_neg (by simp [hevent, hne]), hval]
    rfl

/-- Witness for C6 at the concrete type `unknown-type`. -/
theorem handleRevalidation_unknown_type_500_witness :
    (handleRevalidation (fun _ => none) (fun _ => none)
      ⟨"content.updated", { type := "unknown-type" }, ""⟩ 0 3).success = false ∧
    (handleRevalidation (fun _ => none) (fun _ => none)
      ⟨"content.updated", { type := "unknown-type" }, ""⟩ 0 3).error =
      some ("Unknown content type: " ++ "unknown-type") ∧
    (∀ e, (handleRevalidation (fun _ => none) (fun _ => none)
      ⟨"content.updated", { type := "unknown-type" }, ""⟩ 0 3).error = some e →
      e ≠ "") ∧
    postValidatedStatus (fun _ => none) (fun _ => none)
      ⟨"content.updated", { type := "unknown-type" }, ""⟩ 0 3 = 500 :=
  handleRevalidation_unknown_type_500 (fun _ => none) (fun _ => none)
    ⟨"content.updated", { type := "unknown-type" }, ""⟩ 0 3
    (by decide) (by decide) (by decide)

/-- C8: dispatching a post event with slug `foo` (when none of the involved
revalidation operations throws) revalidates the blog index, the post page,
the sitemap, the RSS feed, and the `blog-posts` tag. -/
theorem handleRevalidation_post_foo (po tg : String → Option String)
    (p : WebhookPayload) (t₀ t₁ : Nat)
    (htype : p.data.type = "post") (hslug : p.data.slug = some "foo")
    (h₁ : po "/blog" = none) (h₂ : po "/blog/foo" = none)
    (h₃ : po "/sitemap.xml" = none) (h₄ : po "/rss.xml" = none)
    (h₅ : tg "blog-posts" = none) :
    "/blog" ∈ (handleRevalidation po tg p t₀ t₁).revalidatedPaths ∧
    "/blog/foo" ∈ (handleRevalidation po tg p t₀ t₁).revalidatedPaths ∧
    "/sitemap.xml" ∈ (handleRevalidation po tg p t₀ t₁).revalidatedPaths ∧
    "/rss.xml" ∈ (handleRevalidation po tg p t₀ t₁).revalidatedPaths ∧
    "blog-posts" ∈ (handleRevalidation po tg p t₀ t₁).revalidatedTags := by
  have hfoo : ("/blog/" ++ "foo" : String) = "/blog/foo" := rfl
  have hval : handleRevalidation po tg p t₀ t₁ =
      RevalidationManager.getResult
        ⟨["/blog", "/blog/foo", "/sitemap.xml", "/rss.xml"], ["blog-posts"]⟩ t₀ t₁ := by
    rw [handleRevalidation, htype]
    simp [RevalidationManager.revalidateBlogPost, RevalidationManager.revalidatePath,
      RevalidationManager.revalidateTag, hslug, hfoo, h₁, h₂, h₃, h₄, h₅,
      Bind.bind, Except.bind, pure, Except.pure, rmFinish]
  rw [hval]
  simp [RevalidationManager.getResult]

/-- Witness for C8 with non-throwing oracles. -/
theorem handleRevalidation_post_foo_witness :
    "/blog" ∈ (handleRevalidation (fun _ => none) (fun _ => none)
      ⟨"e", { type := "post", slug := some "foo" }, ""⟩ 0 1).revalidatedPaths ∧
    "/blog/foo" ∈ (handleRevalidation (fun _ => none) (fun _ => none)
      ⟨"e", { type := "post", slug := some "foo" }, ""⟩ 0 1).revalidatedPaths ∧
    "/sitemap.xml" ∈ (handleRevalidation (fun _ => none) (fun _ => none)
      ⟨"e", { type := "post", slug := some "foo" }, ""⟩ 0 1).revalidatedPaths ∧
    "/rss.xml" ∈ (handleRevalidation (fun _ => none) (fun _ => none)
      ⟨"e", { type := "post", slug := some "foo" }, ""⟩ 0 1).revalidatedPaths ∧
    "blog-posts" ∈ (handleRevalidation (fun _ => none) (fun _ => none)
      ⟨"e", { type := "post", slug := some "foo" }, ""⟩ 0 1).revalidatedTags :=
  handleRevalidation_post_foo (fun _ => none) (fun _ => none)
    ⟨"e", { type := "post", slug := some "foo" }, ""⟩ 0 1
    rfl rfl rfl rfl rfl rfl rfl

/-- C9: a page event for the sentinel slug `home` revalidates the root path
and not `/home`; a page event for any other non-empty slug `s` revalidates
`/s`; in both cases the sitemap path and the `pages` tag are also
revalidated (no involved operation throwing). The two scenarios are
expressed over two payloads `p` (slug `home`) and `q` (slug `s`). -/
theorem handleRevalidation_page_paths (po tg : String → Option String)
    (p q : WebhookPayload) (s : String) (t₀ t₁ : Nat)
    (hptype : p.data.type = "page") (hpslug : p.data.slug = some "home")
    (hqtype : q.data.type = "page") (hqslug : q.data.slug = some s)
    (hs₀ : s ≠ "") (hs₁ : s ≠ "home")
    (hroot : po "/" = none) (hslugpath : po ("/" ++ s) = none)
    (hmap : po "/sitemap.xml" = none) (htag : tg "pages" = none) :
    "/" ∈ (handleRevalidation po tg p t₀ t₁).revalidatedPaths ∧
    "/home" ∉ (handleRevalidation po tg p t₀ t₁).revalidatedPaths ∧
    "/sitemap.xml" ∈ (handleRevalidation po tg p t₀ t₁).revalidatedPaths ∧
    "pages" ∈ (handleRevalidation po tg p t₀ t₁).revalidatedTags ∧
    ("/" ++ s) ∈ (handleRevalidation po tg q t₀ t₁).revalidatedPaths ∧
    "/sitemap.xml" ∈ (handleRevalidation po tg q t₀ t₁).revalidatedPaths ∧
    "pages" ∈ (handleRevalidation po tg q t₀ t₁).revalidatedTags := by
  have hvalp : handleRevalidation po tg p t₀ t₁ =
      RevalidationManager.getResult ⟨["/", "/sitemap.xml"], ["pages"]⟩ t₀ t₁ := by
    rw [handleRevalidation, hptype]
    simp [RevalidationManager.revalidatePage, RevalidationManager.revalidatePath,
      RevalidationManager.revalidateTag, hpslug, hroot, hmap, htag,
      Bind.bind, Except.bind, pure, Except.pure, rmFinish]
  have hvalq : handleRevalidation po tg q t₀ t₁ =
      RevalidationManager.getResult ⟨["/" ++ s, "/sitemap.xml"], ["pages"]⟩ t₀ t₁ := by
    rw [handleRevalidation, hqtype]
    simp [RevalidationManager.revalidatePage, RevalidationManager.revalidatePath,
      RevalidationManager.revalidateTag, hqslug, hs₀, hs₁, hslugpath, hmap, htag,
      Bind.bind, Except.bind, pure, Except.pure, rmFinish]
  rw [hvalp, hvalq]
  refine ⟨by simp [RevalidationManager.getResult], ?_,
    by simp [RevalidationManager.getResult], by simp [RevalidationManager.getResult],
    by simp [RevalidationManager.getResult], by simp [RevalidationManager.getResult],
    by simp [RevalidationManager.getResult]⟩
  simp [RevalidationManager.getResult]

/-- Witness for C9 with slug `about` in the non-sentinel scenario. -/
theorem handleRevalidation_page_paths_witness :
    "/" ∈ (handleRevalidation (fun _ => none) (fun _ => none)
      ⟨"e", { type := "page", slug := some "home" }, ""⟩ 0 1).revalidatedPaths ∧
    "/home" ∉ (handleRevalidation (fun _ => none) (fun _ => none)
      ⟨"e", { type := "page", slug := some "home" }, ""⟩ 0 1).revalidatedPaths ∧
    "/sitemap.xml" ∈ (handleRevalidation (fun _ => none) (fun _ => none)
      ⟨"e", { type := "page", slug := some "home" }, ""⟩ 0 1).revalidatedPaths ∧
    "pages" ∈ (handleRevalidation (fun _ => none) (fun _ => none)
      ⟨"e", { type := "page", slug := some "home" }, ""⟩ 0 1).revalidatedTags ∧
    ("/" ++ "about") ∈ (handleRevalidation (fun _ => none) (fun _ => none)
      ⟨"e", { type := "page", slug := some "about" }, ""⟩ 0 1).revalidatedPaths ∧
    "/sitemap.xml" ∈ (handleRevalidation (fun _ => none) (fun _ => none)
      ⟨"e", { type := "page", slug := some "about" }, ""⟩ 0 1).revalidatedPaths ∧
    "pages" ∈ (handleRevalidation (fun _ => none) (fun _ => none)
      ⟨"e", { type := "page", slug := some "about" }, ""⟩ 0 1).revalidatedTags :=
  handleRevalidation_page_paths (fun _ => none) (fun _ => none)
    ⟨"e", { type := "page", slug := some "home" }, ""⟩
    ⟨"e", { type := "page", slug := some "about" }, ""⟩ "about" 0 1
    rfl rfl rfl rfl (by decide) (by decide) rfl rfl rfl rfl

/-- C7: `triggerDeploy` always returns a structured result object — success,
or failure carrying an error message — and in particular: an absent hook URL
yields the immediate configuration-failure result whatever the network would
have done; a non-2xx response yields a failure result capturing the status
text; a network-level exception yields a failure result carrying its
message. -/
theorem triggerDeploy_structured (config : WebhookConfig) (oracle : FetchOutcome)
    (environment : Environment) (reason : Option String) :
    ((getDeployHook config environment).url = "" →
      triggerDeploy config oracle environment reason =
        { success := false
          error := some ("No deploy hook configured for " ++ environment.toStr) }) ∧
    ((getDeployHook config environment).url ≠ "" →
      ∀ status statusText body, oracle = .response status statusText body →
        ¬(200 ≤ status ∧ status ≤ 299) →
        triggerDeploy config oracle environment reason =
          { success := false
            error := some ("Deploy hook returned " ++ toString status ++ ": "
              ++ statusText) }) ∧
    ((getDeployHook config environment).url ≠ "" →
      ∀ msg, oracle = .netError msg →
        triggerDeploy config oracle environment reason =
          { success := false, error := some msg }) ∧
    ((triggerDeploy config oracle environment reason).success = true ∨
      ((triggerDeploy config oracle environment reason).success = false ∧
        (triggerDeploy config oracle environment reason).error ≠ none)) := by
  refine ⟨?_, ?_, ?_, ?_⟩
  · intro hurl
    simp only [triggerDeploy.eq_def]
    rw [if_pos hurl]
  · intro hurl status statusText body horacle hstatus
    subst horacle
    simp only [triggerDeploy.eq_def]
    rw [if_neg hurl, if_neg hstatus]
  · intro hurl msg horacle
    subst horacle
    simp only [triggerDeploy.eq_def]
    rw [if_neg hurl]
  · by_cases hurl : (getDeployHook config environment).url = ""
    · have hval : triggerDeploy config oracle environment reason =
          { success := false
            error := some ("No deploy hook configured for "
              ++ environment.toStr) } := by
        simp only [triggerDeploy.eq_def]
        rw [if_pos hurl]
      rw [hval]
      right
      exact ⟨rfl, by simp⟩
    · cases oracle with
      | netError msg =>
        have hval : triggerDeploy config (.netError msg) environment reason =
            { success := false, error := some msg } := by
          simp only [triggerDeploy.eq_def]
          rw [if_neg hurl]
        rw [hval]
        right
        exact ⟨rfl, by simp⟩
      | response status statusText body =>
        by_cases hstatus : 200 ≤ status ∧ status ≤ 299
        · cases body with
          | error msg =>
            have hval : triggerDeploy config
                (.response status statusText (.error msg)) environment reason =
                { success := false, error := some msg } := by
              simp only [triggerDeploy.eq_def]
              rw [if_neg hurl, if_pos hstatus]
            rw [hval]
            right
            exact ⟨rfl, by simp⟩
          | ok j =>
            have hval : triggerDeploy config
                (.response status statusText (.ok j)) environment reason =
                { success := true
                  deploymentId := orFalsyStr j.deploymentId j.jsonId } := by
              simp only [triggerDeploy.eq_def]
              rw [if_neg hurl, if_pos hstatus]
            rw [hval]
            left
            rfl
        · have hval : triggerDeploy config
              (.response status statusText body) environment reason =
              { success := false
                error := some ("Deploy hook returned " ++ toString status
                  ++ ": " ++ statusText) } := by
            simp only [triggerDeploy.eq_def]
            rw [if_neg hurl, if_neg hstatus]
          rw [hval]
          right
          exact ⟨rfl, by simp⟩

/-- Witness for C7: the no-URL, non-2xx and network-error cases at concrete
inputs, each through `triggerDeploy_structured`. -/
theorem triggerDeploy_structured_witness :
    triggerDeploy testConfig (.netError "unused") .production none =
      { success := false
        error := some ("No deploy hook configured for " ++ "production") } ∧
    triggerDeploy testConfig (.response 503 "Service Unavailable" (.ok {}))
      .staging none =
      { success := false
        error := some ("Deploy hook returned " ++ toString 503 ++ ": "
          ++ "Service Unavailable") } ∧
    triggerDeploy testConfig (.netError "fetch failed") .staging none =
      { success := false, error := some "fetch failed" } := by
  refine ⟨?_, ?_, ?_⟩
  · exact (triggerDeploy_structured testConfig (.netError "unused")
      .production none).1 (by decide)
  · exact (triggerDeploy_structured testConfig
      (.response 503 "Service Unavailable" (.ok {})) .staging none).2.1
      (by decide) 503 "Service Unavailable" (.ok {}) rfl (by decide)
  · exact (triggerDeploy_structured testConfig (.netError "fetch failed")
      .staging none).2.2.1 (by decide) "fetch failed" rfl

theorem mapLookup_mem {κ α : Type} [DecidableEq κ] (k : κ) (v : α)
    (l : List (κ × α)) (h : mapLookup k l = some v) : (k, v) ∈ l := by
  induction l with
  | nil => exact absurd h (by simp [mapLookup])
  | cons p t ih =>
    cases p with
    | mk k' w =>
      simp only [mapLookup] at h
      by_cases hk : k' = k
      · rw [if_pos hk] at h
        subst hk
        obtain rfl : w = v := by injection h
        exact List.mem_cons_self _ _
      · rw [if_neg hk] at h
        exact List.mem_cons_of_mem _ (ih h)

theorem mem_mapSet {κ α : Type} [DecidableEq κ] (k : κ) (v : α)
    (l : List (κ × α)) (q : κ × α) (h : q ∈ mapSet k v l) :
    q = (k, v) ∨ q ∈ l := by
  rw [mapSet] at h
  by_cases hany : l.any (fun p => p.1 = k)
  · rw [if_pos hany] at h
    rcases List.mem_map.mp h with ⟨p, hp, hq⟩
    by_cases hk : p.1 = k
    · rw [if_pos hk] at hq
      exact Or.inl hq.symm
    · rw [if_neg hk] at hq
      exact Or.inr (hq ▸ hp)
  · rw [if_neg hany] at h
    rcases List.mem_append.mp h with h | h
    · exact Or.inr h
    · exact Or.inl (List.mem_singleton.mp h)

/-- Unfolding `queueDeployment` when a pending timer exists for the
environment. -/
theorem queueDeployment_eq_some (s : WMState) (e : Environment) (r : String)
    (d t₀ : Nat) (hl : mapLookup e s.pendingTimers = some t₀) :
    queueDeployment s e r d =
      { s with
        canceledTimers := t₀ :: s.canceledTimers
        timerCallbacks := (s.nextTimerId, (e, r)) :: s.timerCallbacks
        pendingTimers := mapSet e s.nextTimerId s.pendingTimers
        nextTimerId := s.nextTimerId + 1 } := by
  rw [queueDeployment, hl]

/-- Unfolding `queueDeployment` when no pending timer exists for the
environment. -/
theorem queueDeployment_eq_none (s : WMState) (e : Environment) (r : String)
    (d : Nat) (hl : mapLookup e s.pendingTimers = none) :
    queueDeployment s e r d =
      { s with
        timerCallbacks := (s.nextTimerId, (e, r)) :: s.timerCallbacks
        pendingTimers := mapSet e s.nextTimerId s.pendingTimers
        nextTimerId := s.nextTimerId + 1 } := by
  rw [queueDeployment, hl]

/-- A cleared or already-run timer does nothing when fired. -/
theorem fireTimer_skip (s : WMState) (t : Nat) (outcome : Bool)
    (h : t ∈ s.canceledTimers ∨ t ∈ s.doneTimers) :
    fireTimer s t outcome = s := by
  rw [fireTimer, if_pos h]

/-- A live timer fires its registered callback. -/
theorem fireTimer_run (s : WMState) (t : Nat) (outcome : Bool)
    (e : Environment) (r : String)
    (hc : t ∉ s.canceledTimers) (hd : t ∉ s.doneTimers)
    (hcb : mapLookup t s.timerCallbacks = some (e, r)) :
    fireTimer s t outcome =
      { s with
        fired := s.fired ++ [(e, r, outcome)]
        pendingTimers := mapDelete e s.pendingTimers
        doneTimers := t :: s.doneTimers } := by
  rw [fireTimer, if_neg (by tauto), hcb]

/-- `queueDeployment` preserves the timer-id well-formedness invariant. -/
theorem WMWF_queueDeployment (s : WMState) (e : Environment) (r : String)
    (d : Nat) (hwf : WMWF s) : WMWF (queueDeployment s e r d) := by
  obtain ⟨hc, hd, hp⟩ := hwf
  cases hl : mapLookup e s.pendingTimers with
  | none =>
    rw [queueDeployment_eq_none s e r d hl]
    refine ⟨fun t ht => ?_, fun t ht => ?_, fun q hq => ?_⟩
    · exact Nat.lt_succ_of_lt (hc t ht)
    · exact Nat.lt_succ_of_lt (hd t ht)
    · rcases mem_mapSet _ _ _ _ hq with h | h
      · rw [h]; exact Nat.lt_succ_self _
      · exact Nat.lt_succ_of_lt (hp q h)
  | some t₀ =>
    rw [queueDeployment_eq_some s e r d t₀ hl]
    refine ⟨fun t ht => ?_, fun t ht => ?_, fun q hq => ?_⟩
    · rcases List.mem_cons.mp ht with h | h
      · subst h
        exact Nat.lt_succ_of_lt (hp _ (mapLookup_mem e t s.pendingTimers hl))
      · exact Nat.lt_succ_of_lt (hc t h)
    · exact Nat.lt_succ_of_lt (hd t ht)
    · rcases mem_mapSet _ _ _ _ hq with h | h
      · rw [h]; exact Nat.lt_succ_self _
      · exact Nat.lt_succ_of_lt (hp q h)

/-- C3: queueing a deployment twice for the same environment cancels and
replaces the first pending timer; firing both allocated timers (in their
deadline order) then makes exactly one `triggerDeploy` invocation — the
second call's, whatever its outcome — and removes the environment's
pending-timer entry regardless of that outcome. -/
theorem queueDeployment_debounce (s : WMState) (environment : Environment)
    (r₁ r₂ : String) (d₁ d₂ : Nat) (b₁ b₂ : Bool) (hwf : WMWF s) :
    s.nextTimerId ∈
      (queueDeployment (queueDeployment s environment r₁ d₁) environment r₂ d₂).canceledTimers ∧
    mapLookup environment
      (queueDeployment (queueDeployment s environment r₁ d₁) environment r₂ d₂).pendingTimers =
      some (s.nextTimerId + 1) ∧
    (fireTimer (fireTimer (queueDeployment (queueDeployment s environment r₁ d₁)
        environment r₂ d₂) s.nextTimerId b₁) (s.nextTimerId + 1) b₂).fired =
      s.fired ++ [(environment, r₂, b₂)] ∧
    mapLookup environment
      (fireTimer (fireTimer (queueDeployment (queueDeployment s environment r₁ d₁)
        environment r₂ d₂) s.nextTimerId b₁) (s.nextTimerId + 1) b₂).pendingTimers =
      none := by
  have hwf₁ := WMWF_queueDeployment s environment r₁ d₁ hwf
  have hlook₁ : mapLookup environment
      (queueDeployment s environment r₁ d₁).pendingTimers = some s.nextTimerId := by
    cases hl : mapLookup environment s.pendingTimers with
    | none =>
      rw [queueDeployment_eq_none s environment r₁ d₁ hl]
      exact mapLookup_mapSet_self _ _ _
    | some t₀ =>
      rw [queueDeployment_eq_some s environment r₁ d₁ t₀ hl]
      exact mapLookup_mapSet_self _ _ _
  have hn₁ : (queueDeployment s environment r₁ d₁).nextTimerId = s.nextTimerId + 1 := by
    cases hl : mapLookup environment s.pendingTimers with
    | none => rw [queueDeployment_eq_none s environment r₁ d₁ hl]
    | some t₀ => rw [queueDeployment_eq_some s environment r₁ d₁ t₀ hl]
  have hs₂ := queueDeployment_eq_some (queueDeployment s environment r₁ d₁)
    environment r₂ d₂ s.nextTimerId hlook₁
  obtain ⟨hc₁, hd₁, _⟩ := hwf₁
  have hfired₁ : (queueDeployment s environment r₁ d₁).fired = s.fired := by
    cases hl : mapLookup environment s.pendingTimers with
    | none => rw [queueDeployment_eq_none s environment r₁ d₁ hl]
    | some t₀ => rw [queueDeployment_eq_some s environment r₁ d₁ t₀ hl]
  have hdone₁ : (queueDeployment s environment r₁ d₁).doneTimers = s.doneTimers := by
    cases hl : mapLookup environment s.pendingTimers with
    | none => rw [queueDeployment_eq_none s environment r₁ d₁ hl]
    | some t₀ => rw [queueDeployment_eq_some s environment r₁ d₁ t₀ hl]
  -- the first timer is canceled by the second call
  have hcanc : s.nextTimerId ∈
      (queueDeployment (queueDeployment s environment r₁ d₁)
        environment r₂ d₂).canceledTimers := by
    rw [hs₂]
    exact List.mem_cons_self _ _
  -- firing the first (canceled) timer is a no-op
  have hfire₁ : fireTimer (queueDeployment (queueDeployment s environment r₁ d₁)
      environment r₂ d₂) s.nextTimerId b₁ =
      queueDeployment (queueDeployment s environment r₁ d₁) environment r₂ d₂ :=
    fireTimer_skip _ _ _ (Or.inl hcanc)
  -- the second timer is live and fires the second call's deployment
  have ht₂c : s.nextTimerId + 1 ∉
      (queueDeployment (queueDeployment s environment r₁ d₁)
        environment r₂ d₂).canceledTimers := by
    rw [hs₂]
    intro hmem
    rcases List.mem_cons.mp hmem with h | h
    · omega
    · have := hc₁ _ h
      rw [hn₁] at this
      omega
  have ht₂d : s.nextTimerId + 1 ∉
      (queueDeployment (queueDeployment s environment r₁ d₁)
        environment r₂ d₂).doneTimers := by
    rw [hs₂]
    intro hmem
    have := hd₁ _ hmem
    rw [hn₁] at this
    omega
  have ht₂cb : mapLookup (s.nextTimerId + 1)
      (queueDeployment (queueDeployment s environment r₁ d₁)
        environment r₂ d₂).timerCallbacks = some (environment, r₂) := by
    rw [hs₂]
    show mapLookup (s.nextTimerId + 1)
      (((queueDeployment s environment r₁ d₁).nextTimerId, (environment, r₂)) :: _) = _
    rw [hn₁]
    simp [mapLookup]
  have hfire₂ := fireTimer_run
    (queueDeployment (queueDeployment s environment r₁ d₁) environment r₂ d₂)
    (s.nextTimerId + 1) b₂ environment r₂ ht₂c ht₂d ht₂cb
  refine ⟨hcanc, ?_, ?_, ?_⟩
  · rw [hs₂]
    show mapLookup environment
      (mapSet environment (queueDeployment s environment r₁ d₁).nextTimerId _) = _
    rw [hn₁]
    exact mapLookup_mapSet_self _ _ _
  · rw [hfire₁, hfire₂]
    show (queueDeployment (queueDeployment s environment r₁ d₁)
        environment r₂ d₂).fired ++ [(environment, r₂, b₂)] = _
    have : (queueDeployment (queueDeployment s environment r₁ d₁)
        environment r₂ d₂).fired = s.fired := by
      rw [hs₂]
      exact hfired₁
    rw [this]
  · rw [hfire₁, hfire₂]
    exact mapLookup_mapDelete_self _ _

/-- Witness for C3 from the empty queue state. -/
theorem queueDeployment_debounce_witness :
    initialWMState.nextTimerId ∈
      (queueDeployment (queueDeployment initialWMState .staging "push A" 1000)
        .staging "push B" 1000).canceledTimers ∧
    mapLookup Environment.staging
      (queueDeployment (queueDeployment initialWMState .staging "push A" 1000)
        .staging "push B" 1000).pendingTimers =
      some (initialWMState.nextTimerId + 1) ∧
    (fireTimer (fireTimer (queueDeployment (queueDeployment initialWMState
        .staging "push A" 1000) .staging "push B" 1000)
        initialWMState.nextTimerId true) (initialWMState.nextTimerId + 1) false).fired =
      initialWMState.fired ++ [(.staging, "push B", false)] ∧
    mapLookup Environment.staging
      (fireTimer (fireTimer (queueDeployment (queueDeployment initialWMState
        .staging "push A" 1000) .staging "push B" 1000)
        initialWMState.nextTimerId true) (initialWMState.nextTimerId + 1) false).pendingTimers =
      none :=
  queueDeployment_debounce initialWMState .staging "push A" "push B" 1000 1000
    true false (by decide)

theorem mapDelete_of_not_mem {κ α : Type} [DecidableEq κ] (k : κ)
    (l : List (κ × α)) (h : k ∉ mapKeys l) : mapDelete k l = l := by
  rw [mapDelete, List.filter_eq_self]
  intro p hp
  simp only [decide_eq_true_eq]
  intro hk
  exact h (by rw [mapKeys]; exact List.mem_map.mpr ⟨p, hp, hk⟩)

theorem length_mapDelete_cons_le {κ α : Type} [DecidableEq κ]
    (p : κ × α) (t : List (κ × α)) :
    (mapDelete p.1 (p :: t)).length ≤ t.length := by
  rw [mapDelete, List.filter_cons_of_neg (by simp)]
  exact List.length_filter_le _ t

/-- `updateDeployment` keeps the collection within the 50-entry bound. -/
theorem length_updateDeployment_le (deps : Deployments) (d : DeploymentPatch)
    (now : Nat) (hle : deps.length ≤ 50) :
    (updateDeployment deps d now).length ≤ 50 := by
  rw [updateDeployment]
  by_cases hmem : d.id ∈ mapKeys deps
  · have hlen : (mapSet d.id (mergeDeployment (mapLookup d.id deps) d now) deps).length
        = deps.length := length_mapSet_of_mem _ _ _ hmem
    rw [if_neg (by rw [hlen, maxHistory]; omega)]
    rw [hlen]
    exact hle
  · rw [mapSet_of_not_mem _ _ _ hmem]
    by_cases hfull : deps.length = 50
    · have hcond : (deps ++ [(d.id, mergeDeployment (mapLookup d.id deps) d now)]).length
          > maxHistory := by
        simp only [List.length_append, List.length_singleton, maxHistory]
        omega
      rw [if_pos hcond]
      cases deps with
      | nil => simp at hfull
      | cons p t =>
        rw [List.cons_append]
        simp only [evictOldest]
        calc (mapDelete p.1 (p :: (t ++ [(d.id,
              mergeDeployment (mapLookup d.id (p :: t)) d now)]))).length
            ≤ (t ++ [(d.id, mergeDeployment (mapLookup d.id (p :: t)) d now)]).length :=
              length_mapDelete_cons_le _ _
          _ ≤ 50 := by
              simp only [List.length_append, List.length_singleton]
              simp only [List.length_cons] at hfull
              omega
    · have hcond : ¬((deps ++ [(d.id, mergeDeployment (mapLookup d.id deps) d now)]).length
          > maxHistory) := by
        simp only [List.length_append, List.length_singleton, maxHistory]
        omega
      rw [if_neg hcond]
      simp only [List.length_append, List.length_singleton]
      omega

/-- After `updateDeployment`, looking up the updated id yields exactly the
merged record (within the 50-entry bound, the updated entry itself is never
the evicted one). -/
theorem getDeployment_updateDeployment_self (deps : Deployments)
    (d : DeploymentPatch) (now : Nat) (hle : deps.length ≤ 50) :
    getDeployment (updateDeployment deps d now) d.id =
      some (mergeDeployment (getDeployment deps d.id) d now) := by
  rw [updateDeployment, getDeployment, getDeployment]
  by_cases hmem : d.id ∈ mapKeys deps
  · rw [if_neg]
    · exact mapLookup_mapSet_self _ _ _
    · rw [length_mapSet_of_mem _ _ _ hmem, maxHistory]
      omega
  · rw [mapSet_of_not_mem _ _ _ hmem]
    by_cases hbig :
        (deps ++ [(d.id, mergeDeployment (mapLookup d.id deps) d now)]).length
          > maxHistory
    · rw [if_pos hbig]
      cases deps with
      | nil =>
        simp only [List.length_append, List.length_singleton, List.length_nil,
          maxHistory] at hbig
        omega
      | cons p t =>
        have hne : d.id ≠ p.1 := by
          intro hq
          exact hmem (by
            rw [hq, mapKeys, List.map_cons]
            exact List.mem_cons_self _ _)
        rw [List.cons_append, evictOldest, mapLookup_mapDelete_ne _ _ _ hne,
          ← List.cons_append]
        exact mapLookup_append_singleton _ _ _ (mapLookup_eq_none _ _ hmem)
    · rw [if_neg hbig]
      exact mapLookup_append_singleton _ _ _ (mapLookup_eq_none _ _ hmem)

theorem getDeployment_markReady (deps : Deployments) (id : String)
    (url : Option String) (buildTime : Option Nat) (now : Nat)
    (hle : deps.length ≤ 50) :
    getDeployment (markReady deps id url buildTime now) id =
      some (mergeDeployment (getDeployment deps id)
        { id := id, status := some "ready", url := url,
          duration := orFalsyNat buildTime
            ((getDeployment deps id).map (fun dep => now - dep.createdAt)) } now) := by
  simp only [markReady]
  exact getDeployment_updateDeployment_self deps _ now hle

theorem getDeployment_markFailed (deps : Deployments) (id e : String)
    (logs : Option (List String)) (now : Nat) (hle : deps.length ≤ 50) :
    getDeployment (markFailed deps id e logs now) id =
      some (mergeDeployment (getDeployment deps id)
        { id := id, status := some "error", error := some e,
          duration := (getDeployment deps id).map (fun dep => now - dep.createdAt),
          buildLogs := logs } now) := by
  simp only [markFailed]
  exact getDeployment_updateDeployment_self deps _ now hle

/-- C5 counterexample: the claim as stated fails in the same-millisecond
case. `markReady` without a `buildTime` at the record's own `createdAt`
computes an elapsed duration of `0`, but `0` is falsy, so
`updateDeployment`'s merge `deployment.duration || existing?.duration`
discards it and keeps the previous duration (`7` here), not the elapsed
`0`; the same holds for `markFailed`. -/
theorem markReady_zero_elapsed_counterexample :
    (getDeployment (markReady [("dep-1", testRecordWithDuration)] "dep-1" none
        none testRecordWithDuration.createdAt) "dep-1").bind (fun x => x.duration)
      = some 7 ∧
    (getDeployment (markReady [("dep-1", testRecordWithDuration)] "dep-1" none
        none testRecordWithDuration.createdAt) "dep-1").bind (fun x => x.duration)
      ≠ some (testRecordWithDuration.createdAt - testRecordWithDuration.createdAt) ∧
    (getDeployment (markFailed [("dep-1", testRecordWithDuration)] "dep-1" "boom"
        none testRecordWithDuration.createdAt) "dep-1").bind (fun x => x.duration)
      ≠ some (testRecordWithDuration.createdAt - testRecordWithDuration.createdAt) := by
  exact ⟨rfl, by decide, by decide⟩

/-- C5 (amended): `startDeployment(id, env)` followed by
`markReady(id, url, 5000)` yields a deployment with status `ready` and
duration `5000`; and when `markReady`/`markFailed` run without an explicit
`buildTime` on an id whose record exists and at least one millisecond has
elapsed since `createdAt` (so the computed duration is truthy — at zero
elapsed milliseconds the falsy merge keeps the previous duration instead),
the stored duration is the elapsed time since that record's `createdAt`. -/
theorem startDeployment_markReady_duration (deps : Deployments) (id env : String)
    (url : Option String) (r : DeploymentStatus) (t₁ t₂ now : Nat)
    (hle : deps.length ≤ 50) :
    ((getDeployment (markReady (startDeployment deps id env t₁) id url
        (some 5000) t₂) id).map (fun x => x.status) = some "ready" ∧
      (getDeployment (markReady (startDeployment deps id env t₁) id url
        (some 5000) t₂) id).bind (fun x => x.duration) = some 5000) ∧
    (getDeployment deps id = some r → r.createdAt < now →
      (getDeployment (markReady deps id url none now) id).bind (fun x => x.duration)
        = some (now - r.createdAt)) ∧
    (getDeployment deps id = some r → r.createdAt < now → ∀ e logs,
      (getDeployment (markFailed deps id e logs now) id).bind (fun x => x.duration)
        = some (now - r.createdAt)) := by
  refine ⟨?_, ?_, ?_⟩
  · have h₁ : (startDeployment deps id env t₁).length ≤ 50 := by
      rw [startDeployment]
      exact length_updateDeployment_le _ _ _ hle
    rw [getDeployment_markReady _ _ _ _ _ h₁]
    constructor
    · simp [mergeDeployment, orFalsyStr, falsyOr]
    · simp [mergeDeployment, orFalsyNat]
  · intro hex hlt
    rw [getDeployment_markReady _ _ _ _ _ hle, hex]
    have hne : now - r.createdAt ≠ 0 := by omega
    simp [mergeDeployment, orFalsyNat, hne]
  · intro hex hlt e logs
    rw [getDeployment_markFailed _ _ _ _ _ hle, hex]
    have hne : now - r.createdAt ≠ 0 := by omega
    simp [mergeDeployment, orFalsyNat, hne]

/-- Witness for C5 on concrete states. -/
theorem startDeployment_markReady_duration_witness :
    ((getDeployment (markReady (startDeployment [] "dep-1" "staging" 100) "dep-1"
        (some "https://x") (some 5000) 5100) "dep-1").map (fun x => x.status)
        = some "ready" ∧
      (getDeployment (markReady (startDeployment [] "dep-1" "staging" 100) "dep-1"
        (some "https://x") (some 5000) 5100) "dep-1").bind (fun x => x.duration)
        = some 5000) ∧
    (getDeployment [("dep-1", testRecord)] "dep-1" = some testRecord →
      testRecord.createdAt < 1100 →
      (getDeployment (markReady [("dep-1", testRecord)] "dep-1" (some "https://x")
        none 1100) "dep-1").bind (fun x => x.duration)
        = some (1100 - testRecord.createdAt)) ∧
    (getDeployment [("dep-1", testRecord)] "dep-1" = some testRecord →
      testRecord.createdAt < 1100 → ∀ e logs,
      (getDeployment (markFailed [("dep-1", testRecord)] "dep-1" e logs
        1100) "dep-1").bind (fun x => x.duration)
        = some (1100 - testRecord.createdAt)) := by
  refine ⟨(startDeployment_markReady_duration [] "dep-1" "staging" (some "https://x")
    testRecord 100 5100 1100 (by decide)).1, ?_, ?_⟩
  · intro h hlt
    exact (startDeployment_markReady_duration [("dep-1", testRecord)] "dep-1"
      "staging" (some "https://x") testRecord 100 5100 1100 (by decide)).2.1 h hlt
  · intro h hlt e logs
    exact (startDeployment_markReady_duration [("dep-1", testRecord)] "dep-1"
      "staging" (some "https://x") testRecord 100 5100 1100 (by decide)).2.2 h hlt e logs

/-- C10 counterexample: an `updateDeployment` call that explicitly supplies a
(truthy) `createdAt` overwrites the stored `createdAt`, so "createdAt is
never changed once set" fails on the code. -/
theorem updateDeployment_createdAt_counterexample :
    (getDeployment (updateDeployment (updateDeployment []
        ({ id := "d", createdAt := some 1 } : DeploymentPatch) 10)
        ({ id := "d", createdAt := some 5 } : DeploymentPatch) 20) "d").map
      (fun x => x.createdAt) = some 5 ∧
    (getDeployment (updateDeployment []
        ({ id := "d", createdAt := some 1 } : DeploymentPatch) 10) "d").map
      (fun x => x.createdAt) = some 1 :=
  ⟨rfl, rfl⟩

/-- C10 (amended): on an existing id (with the invariant that stored
`environment`/`status` are truthy, as every record the monitor builds
satisfies), every field supplied as undefined-or-falsy falls through to the
existing stored value, `createdAt` is preserved whenever the update does not
supply one, and `updatedAt` is refreshed to the current time. -/
theorem updateDeployment_frame (deps : Deployments) (d : DeploymentPatch)
    (now : Nat) (r : DeploymentStatus)
    (hex : getDeployment deps d.id = some r) (hle : deps.length ≤ 50)
    (henv : r.environment ≠ "") (hst : r.status ≠ "") :
    ∃ u, getDeployment (updateDeployment deps d now) d.id = some u ∧
      ((d.environment = none ∨ d.environment = some "") →
        u.environment = r.environment) ∧
      ((d.status = none ∨ d.status = some "") → u.status = r.status) ∧
      ((d.url = none ∨ d.url = some "") → u.url = r.url) ∧
      ((d.duration = none ∨ d.duration = some 0) → u.duration = r.duration) ∧
      ((d.error = none ∨ d.error = some "") → u.error = r.error) ∧
      (d.buildLogs = none → u.buildLogs = r.buildLogs) ∧
      (d.createdAt = none → u.createdAt = r.createdAt) ∧
      u.updatedAt = now := by
  refine ⟨mergeDeployment (some r) d now, ?_, ?_, ?_, ?_, ?_, ?_, ?_, ?_, rfl⟩
  · rw [getDeployment_updateDeployment_self deps d now hle, hex]
  · rintro (h | h) <;> simp [mergeDeployment, orFalsyStr, falsyOr, h, henv]
  · rintro (h | h) <;> simp [mergeDeployment, orFalsyStr, falsyOr, h, hst]
  · rintro (h | h) <;> simp [mergeDeployment, orFalsyStr, h]
  · rintro (h | h) <;> simp [mergeDeployment, orFalsyNat, h]
  · rintro (h | h) <;> simp [mergeDeployment, orFalsyStr, h]
  · intro h
    simp [mergeDeployment, h]
  · intro h
    simp [mergeDeployment, h]

/-- Witness for the amended C10 with a falsy-field update on a concrete
record. -/
theorem updateDeployment_frame_witness :
    ∃ u, getDeployment (updateDeployment [("dep-1", testRecord)]
        ({ id := "dep-1", url := some "", duration := some 0 } : DeploymentPatch)
        777) "dep-1" = some u ∧
      u.environment = testRecord.environment ∧
      u.status = testRecord.status ∧
      u.url = testRecord.url ∧
      u.duration = testRecord.duration ∧
      u.error = testRecord.error ∧
      u.buildLogs = testRecord.buildLogs ∧
      u.createdAt = testRecord.createdAt ∧
      u.updatedAt = 777 := by
  obtain ⟨u, hu, h₁, h₂, h₃, h₄, h₅, h₆, h₇, h₈⟩ :=
    updateDeployment_frame [("dep-1", testRecord)]
      ({ id := "dep-1", url := some "", duration := some 0 } : DeploymentPatch)
      777 testRecord (by decide) (by decide) (by decide) (by decide)
  exact ⟨u, hu, h₁ (Or.inl rfl), h₂ (Or.inl rfl), h₃ (Or.inr rfl),
    h₄ (Or.inr rfl), h₅ (Or.inl rfl), h₆ rfl, h₇ rfl, h₈⟩

theorem mapKeys_append {κ α : Type} [DecidableEq κ] (l₁ l₂ : List (κ × α)) :
    mapKeys (l₁ ++ l₂) = mapKeys l₁ ++ mapKeys l₂ := by
  simp [mapKeys]

theorem mapKeys_tail {κ α : Type} [DecidableEq κ] (l : List (κ × α)) :
    mapKeys l.tail = (mapKeys l).tail := by
  cases l <;> rfl

theorem length_mapKeys {κ α : Type} [DecidableEq κ] (l : List (κ × α)) :
    (mapKeys l).length = l.length := by
  rw [mapKeys, List.length_map]

/-- A fresh insert into a monitor holding fewer than 50 records appends. -/
theorem updateDeployment_fresh_small (deps : Deployments) (d : DeploymentPatch)
    (now : Nat) (hmem : d.id ∉ mapKeys deps) (hlt : deps.length < 50) :
    updateDeployment deps d now = deps ++ [(d.id, mergeDeployment none d now)] := by
  rw [updateDeployment, mapLookup_eq_none _ _ hmem, mapSet_of_not_mem _ _ _ hmem]
  rw [if_neg]
  simp only [List.length_append, List.length_singleton, maxHistory]
  omega

/-- A fresh insert into a monitor already holding exactly 50 records (with
duplicate-free keys) appends and evicts the first-inserted entry. -/
theorem updateDeployment_fresh_full (deps : Deployments) (d : DeploymentPatch)
    (now : Nat) (hmem : d.id ∉ mapKeys deps) (hnd : (mapKeys deps).Nodup)
    (hfull : deps.length = 50) :
    updateDeployment deps d now =
      deps.tail ++ [(d.id, mergeDeployment none d now)] := by
  rw [updateDeployment, mapLookup_eq_none _ _ hmem, mapSet_of_not_mem _ _ _ hmem]
  rw [if_pos (by
    simp only [List.length_append, List.length_singleton, maxHistory]
    omega)]
  cases deps with
  | nil => simp at hfull
  | cons p t =>
    rw [List.cons_append]
    simp only [evictOldest, List.tail_cons]
    rw [mapDelete, List.filter_cons_of_neg (by simp)]
    rw [← mapDelete, mapDelete_of_not_mem]
    rw [mapKeys_append]
    intro hp
    rcases List.mem_append.mp hp with hp | hp
    · simp only [mapKeys, List.map_cons, List.nodup_cons] at hnd
      exact hnd.1 hp
    · apply hmem
      rw [mapKeys, List.map_cons]
      simp only [mapKeys, List.map_cons, List.map_nil, List.mem_singleton] at hp
      rw [hp]
      exact List.mem_cons_self _ _

/-- Updating an id already present keeps the key sequence (and hence the
size) unchanged. -/
theorem updateDeployment_existing_keys (deps : Deployments) (d : DeploymentPatch)
    (now : Nat) (hmem : d.id ∈ mapKeys deps) (hle : deps.length ≤ 50) :
    mapKeys (updateDeployment deps d now) = mapKeys deps := by
  rw [updateDeployment]
  rw [if_neg (by
    rw [length_mapSet_of_mem _ _ _ hmem, maxHistory]
    omega)]
  exact mapKeys_mapSet_of_mem _ _ _ hmem

theorem insertDeployments_keys (ids : List String) : ∀ (deps : Deployments),
    (mapKeys deps ++ ids).Nodup → deps.length ≤ 50 →
    mapKeys (insertDeployments deps ids) =
      (mapKeys deps ++ ids).drop ((mapKeys deps ++ ids).length - 50) ∧
    (insertDeployments deps ids).length ≤ 50 := by
  induction ids with
  | nil =>
    intro deps hnd hle
    have hk : (mapKeys deps).length ≤ 50 := by
      rw [length_mapKeys]
      exact hle
    constructor
    · simp only [insertDeployments, List.foldl_nil, List.append_nil]
      rw [Nat.sub_eq_zero_of_le hk, List.drop_zero]
    · exact hle
  | cons i ids ih =>
    intro deps hnd hle
    have hsplit := List.nodup_append.mp hnd
    have hki : i ∉ mapKeys deps :=
      fun hmem => hsplit.2.2 hmem (List.mem_cons_self i ids)
    have hstep : insertDeployments deps (i :: ids) =
        insertDeployments (updateDeployment deps { id := i } 0) ids := rfl
    by_cases hfull : deps.length = 50
    · have heq := updateDeployment_fresh_full deps { id := i } 0 hki hsplit.1 hfull
      have hkeys' : mapKeys (updateDeployment deps { id := i } 0) =
          (mapKeys deps).tail ++ [i] := by
        rw [heq, mapKeys_append, mapKeys_tail]
        rfl
      have hlist : mapKeys (updateDeployment deps { id := i } 0) ++ ids =
          (mapKeys deps ++ i :: ids).drop 1 := by
        rw [hkeys', List.append_assoc, List.singleton_append]
        rw [List.drop_append_of_le_length (by rw [length_mapKeys, hfull]; omega)]
        rw [List.drop_one]
      have hnd' : (mapKeys (updateDeployment deps { id := i } 0) ++ ids).Nodup := by
        rw [hlist]
        exact ((mapKeys deps ++ i :: ids).drop_sublist 1).nodup hnd
      have hle' : (updateDeployment deps { id := i } 0).length ≤ 50 :=
        length_updateDeployment_le deps _ 0 (le_of_eq hfull)
      obtain ⟨hkeysfold, hlenfold⟩ := ih (updateDeployment deps { id := i } 0) hnd' hle'
      constructor
      · rw [hstep, hkeysfold, hlist, List.drop_drop]
        congr 1
        rw [List.length_drop]
        simp only [List.length_append, List.length_cons, length_mapKeys, hfull]
        omega
      · rw [hstep]
        exact hlenfold
    · have hlt : deps.length < 50 := lt_of_le_of_ne hle hfull
      have heq := updateDeployment_fresh_small deps { id := i } 0 hki hlt
      have hkeys' : mapKeys (updateDeployment deps { id := i } 0) =
          mapKeys deps ++ [i] := by
        rw [heq, mapKeys_append]
        rfl
      have hlist : mapKeys (updateDeployment deps { id := i } 0) ++ ids =
          mapKeys deps ++ i :: ids := by
        rw [hkeys', List.append_assoc, List.singleton_append]
      have hnd' : (mapKeys (updateDeployment deps { id := i } 0) ++ ids).Nodup := by
        rw [hlist]
        exact hnd
      have hle' : (updateDeployment deps { id := i } 0).length ≤ 50 :=
        length_updateDeployment_le deps _ 0 hle
      obtain ⟨hkeysfold, hlenfold⟩ := ih (updateDeployment deps { id := i } 0) hnd' hle'
      constructor
      · rw [hstep, hkeysfold, hlist]
      · rw [hstep]
        exact hlenfold

/-- C4: the deployment collection never exceeds 50 entries (every
`updateDeployment` preserves the bound); an update to an id already present
leaves the key sequence — hence the size and the insertion order — unchanged,
so interleaved updates to existing ids do not disturb eviction; and
inserting 51 distinct ids into an empty monitor leaves exactly 50 entries
whose keys are the last 50 inserted ids, the earliest-inserted id having
been evicted. -/
theorem deployment_history_bound (deps : Deployments) (d : DeploymentPatch)
    (now : Nat) (ids : List String) :
    (deps.length ≤ 50 → (updateDeployment deps d now).length ≤ 50) ∧
    (d.id ∈ mapKeys deps → deps.length ≤ 50 →
      mapKeys (updateDeployment deps d now) = mapKeys deps) ∧
    (ids.Nodup → ids.length = 51 →
      (insertDeployments [] ids).length = 50 ∧
      mapKeys (insertDeployments [] ids) = ids.tail ∧
      ∀ i₀, ids.head? = some i₀ → getDeployment (insertDeployments [] ids) i₀ = none) := by
  refine ⟨length_updateDeployment_le deps d now,
    updateDeployment_existing_keys deps d now, ?_⟩
  intro hnd hlen
  have hbase : ((mapKeys ([] : Deployments)) ++ ids).Nodup := by
    simpa [mapKeys] using hnd
  obtain ⟨hkeys, _⟩ := insertDeployments_keys ids [] hbase (by simp)
  have hkeys' : mapKeys (insertDeployments [] ids) = ids.tail := by
    rw [hkeys]
    have : mapKeys ([] : Deployments) ++ ids = ids := by simp [mapKeys]
    rw [this, hlen]
    norm_num
  refine ⟨?_, hkeys', ?_⟩
  · have := length_mapKeys (insertDeployments [] ids)
    rw [hkeys'] at this
    rw [← this, List.length_tail, hlen]
  · intro i₀ hhead
    apply mapLookup_eq_none
    rw [hkeys']
    cases ids with
    | nil => simp at hhead
    | cons j t =>
      obtain rfl : j = i₀ := by injection hhead
      simp only [List.tail_cons]
      simp only [List.nodup_cons] at hnd
      exact hnd.1

/-- Witness for C4: the concrete 51-id scenario and a concrete in-bound
update. -/
theorem deployment_history_bound_witness :
    (insertDeployments [] fiftyOneIds).length = 50 ∧
    mapKeys (insertDeployments [] fiftyOneIds) = fiftyOneIds.tail ∧
    getDeployment (insertDeployments [] fiftyOneIds) "deploy-0" = none ∧
    (updateDeployment [("dep-1", testRecord)]
      ({ id := "dep-1" } : DeploymentPatch) 0).length ≤ 50 := by
  obtain ⟨h₁, h₂, h₃⟩ :=
    (deployment_history_bound [("dep-1", testRecord)]
      ({ id := "dep-1" } : DeploymentPatch) 0 fiftyOneIds).2.2 (by decide) (by decide)
  refine ⟨h₁, h₂, h₃ "deploy-0" (by decide), ?_⟩
  exact (deployment_history_bound [("dep-1", testRecord)]
    ({ id := "dep-1" } : DeploymentPatch) 0 fiftyOneIds).1 (by decide)

